import Mathlib

/-!
Verification of the log-normalization and charting logic of the
network-traffic-graphs repository (src/pie_chart.py, src/line_chart.py).

The pandas dataframes are shallowly embedded:
* a raw CSV file is a header (list of column names) plus rows of raw string
  cells; the `na_values` of `pd.read_csv` (`"-"`, `"(empty)"`, `""`) are
  applied on cell access;
* `pd.to_numeric(errors="coerce")` on a cell is modelled by `parseNum`,
  an optionally signed decimal-integer parser returning `none` (NaN) on
  anything else;
* timestamps are epoch seconds as `Int` (`pd.to_datetime(unit="s")` on an
  integral epoch-seconds value), `none` standing for NaT;
* chart rendering is modelled by returning the data series handed to the
  plotting call (`some series`), while an early `return` before the
  rendering call is `none`; logging is not modelled.

The Python string methods used by the source (`str.replace`, `str.split`,
`str.strip`, `str.lower`) are modelled by structurally recursive functions
over `List Char` so that every definition evaluates inside the kernel.
-/

/-- Python whitespace stripped by `str.strip()` (ASCII part). -/
def isPySpace (c : Char) : Bool :=
  c == ' ' || c == '\t' || c == '\n' || c == '\r' || c == '\x0b' || c == '\x0c'

/-- Python `str.strip()`. -/
def pyStrip (s : String) : String :=
  ⟨((s.data.dropWhile isPySpace).reverse.dropWhile isPySpace).reverse⟩

/-- Python `str.lower()` (ASCII letters). -/
def pyLower (s : String) : String := ⟨s.data.map Char.toLower⟩

/-- Splitting a character list at every comma; the empty list yields one
empty field, as Python `"".split(',') == ['']`. -/
def splitCommaAux : List Char → List Char → List String
  | [], acc => [⟨acc.reverse⟩]
  | c :: rest, acc =>
    if c = ',' then ⟨acc.reverse⟩ :: splitCommaAux rest []
    else splitCommaAux rest (c :: acc)

/-- Python `str.split(',')`. -/
def pySplitComma (s : String) : List String := splitCommaAux s.data []

/-- Left-to-right, non-overlapping replacement of every occurrence of
`pat` (taken nonempty) by `rep`, as Python `str.replace`; the `Nat` fuel is
the input length, enough because every step consumes at least one
character (structural recursion keeps the definition kernel-computable). -/
def replaceAllAux (pat rep : List Char) : Nat → List Char → List Char
  | 0, l => l
  | _ + 1, [] => []
  | fuel + 1, c :: rest =>
    if pat.isPrefixOf (c :: rest) ∧ pat ≠ [] then
      rep ++ replaceAllAux pat rep fuel (rest.drop (pat.length - 1))
    else
      c :: replaceAllAux pat rep fuel rest

/-- Python `str.replace(pat, rep)` (all occurrences). -/
def pyReplace (s pat rep : String) : String :=
  ⟨replaceAllAux pat.data rep.data s.data.length s.data⟩

/-- Value of a nonempty all-digit character list, else `none`. -/
def decDigitsAux : List Char → Nat → Option Nat
  | [], acc => some acc
  | c :: rest, acc =>
    if c.isDigit then decDigitsAux rest (acc * 10 + (c.toNat - 48)) else none

/-- Value of a nonempty all-digit character list, else `none`. -/
def decDigits (l : List Char) : Option Nat :=
  if l = [] then none else decDigitsAux l 0

/-- The canonical four-column shape every raw row is reduced to
(the columns selected on the last line of `load_and_standardize_log`). -/
structure NormalizedRecord where
  datetime : Option Int
  unified_protocol : String
  total_bytes : Int
  event_count : Int
deriving DecidableEq, Repr

/-- One raw CSV file: file name, header row, and data rows (raw cell text). -/
structure CSVFile where
  name : String
  cols : List String
  rows : List (List String)

/-- The `na_values=["-", "(empty)", ""]` handling of `pd.read_csv`: these
cell texts are read as missing (NaN). -/
def naValue (s : String) : Option String :=
  if s = "-" ∨ s = "(empty)" ∨ s = "" then none else some s

/-- Cell of a row under a named column, `none` when the column is absent,
the row is short, or the cell is an na-value. -/
def getCell (cols : List String) (row : List String) (c : String) : Option String :=
  match List.findIdx? (fun x => x == c) cols with
  | some i =>
    match row[i]? with
    | some s => naValue s
    | none => none
  | none => none

/-- Models `pd.to_numeric(errors="coerce")` on a string cell, restricted to
optionally signed decimal integer literals (the byte-count and epoch-second
cells of these logs); anything else coerces to NaN (`none`). -/
def parseNum (s : String) : Option Int :=
  match (pyStrip s).data with
  | '-' :: rest => (decDigits rest).map (fun n => -(n : Int))
  | '+' :: rest => (decDigits rest).map (fun n => (n : Int))
  | l => (decDigits l).map (fun n => (n : Int))

/-- `pd.to_numeric(x, errors="coerce").fillna(0)` on one cell. -/
def toNum0 (c : Option String) : Int := (c.bind parseNum).getD 0

/-- `log_type = file_name.replace(".log.csv", "")`. -/
def log_type (f : CSVFile) : String := pyReplace f.name ".log.csv" ""

/-- The datetime column: if a `ts` column exists, epoch seconds via
`pd.to_numeric(errors="coerce")` then `pd.to_datetime(unit="s")`
(NaN becoming NaT); otherwise NaT for every row. -/
def rowDatetime (f : CSVFile) (row : List String) : Option Int :=
  if "ts" ∈ f.cols then (getCell f.cols row "ts").bind parseNum else none

/-- Protocol standardization for one row: the list of `unified_protocol`
values the row contributes (one element except in the conn/service branch,
whose comma-separated service list is exploded into several records). -/
def rowProtocols (f : CSVFile) (row : List String) : List String :=
  if f.name = "conn.log.csv" ∧ "service" ∈ f.cols then
    (pySplitComma ((getCell f.cols row "service").getD "unknown_service")).map
      (fun s => pyLower (pyStrip s))
  else if "proto" ∈ f.cols then
    [pyLower ((getCell f.cols row "proto").getD "unknown_protocol")]
  else if log_type f ≠ "" then
    [pyLower (log_type f)]
  else
    ["unknown_log_type"]

/-- total_bytes standardization for one row.  Note on the last branch: the
source first executes `df["total_bytes"] = 0`, which overwrites any
`total_bytes` column the file had; hence at the subsequent
`elif file_name == "files.log.csv" and "total_bytes" in df.columns` the
membership test is always true and the column it coerces holds the integer
0 in every row, so that branch produces 0 (not the file's original
`total_bytes` values). -/
def rowTotalBytes (f : CSVFile) (row : List String) : Int :=
  if "orig_bytes" ∈ f.cols ∧ "resp_bytes" ∈ f.cols then
    toNum0 (getCell f.cols row "orig_bytes") + toNum0 (getCell f.cols row "resp_bytes")
  else if "response_body_len" ∈ f.cols then
    toNum0 (getCell f.cols row "response_body_len")
  else if f.name = "files.log.csv" then
    0
  else 0

/-- The records one raw row contributes: one per exploded protocol value,
each carrying the row's datetime and total_bytes and `event_count = 1`
(the counter is added before the explosion, so every exploded record
carries 1). -/
def rowRecords (f : CSVFile) (row : List String) : List NormalizedRecord :=
  (rowProtocols f row).map (fun p =>
    { datetime := rowDatetime f row
      unified_protocol := p
      total_bytes := rowTotalBytes f row
      event_count := 1 })

/-- `load_and_standardize_log`: normalize a whole CSV file, row by row in
order, with the conn/service explosion flat-mapped. -/
def load_and_standardize_log (f : CSVFile) : List NormalizedRecord :=
  f.rows.flatMap (rowRecords f)

/-- Lexicographic comparison of character lists (kernel-computable stand-in
for the `String` order pandas uses when `groupby` sorts its keys). -/
def charListLe : List Char → List Char → Bool
  | [], _ => true
  | _ :: _, [] => false
  | a :: as, b :: bs =>
    if a < b then true
    else if b < a then false
    else charListLe as bs

/-- String order for the groupby key sort. -/
def strLe (a b : String) : Bool := charListLe a.data b.data

/-- The fixed exclusion set of `plot_protocol_pie`
(`transport_protocols_to_exclude` in the source, written there as a Python
set literal in this order). -/
def transport_protocols_to_exclude : List String :=
  ["tcp", "udp", "unknown_transport", "icmp", "arp", "unknown_protocol",
   "unknown_service", "unknown_log_type"]

/-- `filtered_df`: the records surviving
`df[~df["unified_protocol"].isin(transport_protocols_to_exclude)]`. -/
def filteredRecords (records : List NormalizedRecord) : List NormalizedRecord :=
  records.filter (fun r => !(transport_protocols_to_exclude.contains r.unified_protocol))

/-- `groupby("unified_protocol")["event_count"].sum()`: one `(key, sum)`
pair per distinct protocol of the input, keys in ascending order
(pandas `groupby` sorts its keys), each paired with the sum of
`event_count` over the records carrying that protocol. -/
def groupSumByProtocol (records : List NormalizedRecord) : List (String × Int) :=
  (List.insertionSort (fun a b => strLe a b = true)
      ((records.map (fun r => r.unified_protocol)).dedup)).map
    (fun k => (k, ((records.filter (fun r => r.unified_protocol == k)).map
      (fun r => r.event_count)).sum))

/-- `.sort_values(ascending=False)` on the grouped series (sorted by count,
descending; the source's tie order is unspecified — pandas quicksort — so
this embedding fixes a stable sort). -/
def sort_values_desc (l : List (String × Int)) : List (String × Int) :=
  List.insertionSort (fun a b => b.2 ≤ a.2) l

/-- `agg`: the filtered, grouped, descending-sorted protocol/count series of
`plot_protocol_pie`. -/
def aggSeries (records : List NormalizedRecord) : List (String × Int) :=
  sort_values_desc (groupSumByProtocol (filteredRecords records))

/-- `plot_protocol_pie`, modelled as the labelled slice series handed to
`plt.pie`: top 8 categories, the rest merged into a trailing `"other"`
entry when more than 8 remain.  The source has no empty-series guard and
no early return: the rendering call is reached unconditionally, so the
result is always `some` (a `none` would model returning before rendering,
which this function never does). -/
def plot_protocol_pie (records : List NormalizedRecord) : Option (List (String × Int)) :=
  let agg := aggSeries records
  let top_n := 8
  some (if top_n < agg.length then
    agg.take top_n ++ [("other", ((agg.drop top_n).map Prod.snd).sum)]
  else agg)

/-- `pd.to_datetime(df["datetime"], errors="coerce")` on an
already-datetime column: the identity on a timestamp, NaT staying NaT
(line 11 of src/line_chart.py re-coerces a column that the normalization
already produced as datetime). -/
def to_datetime_coerce (t : Option Int) : Option Int := t

/-- Line 11 of `plot_connections_over_time`: re-coerce the datetime column
of every row. -/
def coerceDatetimes (records : List NormalizedRecord) : List NormalizedRecord :=
  records.map (fun r => { r with datetime := to_datetime_coerce r.datetime })

/-- Line 12 of `plot_connections_over_time`:
`df = df[df["datetime"].notna()]`. -/
def dropNaT (records : List NormalizedRecord) : List NormalizedRecord :=
  records.filter (fun r => r.datetime.isSome)

/-- The `(timestamp, event_count)` pairs of the rows whose datetime is
present — the series that `set_index("datetime")` / `["event_count"]`
selects for resampling. -/
def validEvents (records : List NormalizedRecord) : List (Int × Int) :=
  records.filterMap (fun r => r.datetime.map (fun t => (t, r.event_count)))

/-- Left edge of the fixed-width bucket containing time `t`: `t` floored to
a multiple of the width `w` (for `w > 0`, `Int` division `/` is flooring).
This models pandas `resample("30S")` bin alignment: with the default
`origin="start_day"` the bins fall on multiples of the width counted from
midnight, which coincide with multiples counted from the epoch whenever
the width divides one day (as the 30-second width used here does). -/
def bucketStart (w t : Int) : Int := w * (t / w)

/-- Sum of the event counts falling in the left-closed bucket
`[b, b + w)`. -/
def bucketSum (w b : Int) (pts : List (Int × Int)) : Int :=
  ((pts.filter (fun q => decide (b ≤ q.1) && decide (q.1 < b + w))).map Prod.snd).sum

/-- `resample(freq).sum()` on a nonempty series: one bucket per width-`w`
step from the bucket of the minimum timestamp up to the bucket of the
maximum timestamp (dense — buckets with no event appear with sum 0),
each summing the event counts in its left-closed window. -/
def resampleSum (w : Int) (pts : List (Int × Int)) : List (Int × Int) :=
  match pts with
  | [] => []
  | p :: ps =>
    let tmin := ps.foldl (fun m q => min m q.1) p.1
    let tmax := ps.foldl (fun m q => max m q.1) p.1
    let lo := bucketStart w tmin
    let n := ((bucketStart w tmax - lo) / w).toNat + 1
    (List.range n).map (fun (i : Nat) =>
      (lo + w * (i : Int), bucketSum w (lo + w * (i : Int)) (p :: ps)))

/-- `sort_index()` on the valid-event series (ascending by timestamp). -/
def sortByTime (pts : List (Int × Int)) : List (Int × Int) :=
  List.insertionSort (fun a b => a.1 ≤ b.1) pts

/-- The tail of `plot_connections_over_time` from the `df.empty` test on:
`none` models the early returns before any rendering (empty frame, or
empty resampled series); `some connections` models reaching the plotting
calls with the resampled series. -/
def resampleStage (records : List NormalizedRecord) (w : Int) : Option (List (Int × Int)) :=
  if records = [] then none
  else
    let connections := resampleSum w (sortByTime (validEvents records))
    if connections = [] then none
    else some connections

/-- `plot_connections_over_time` (src/line_chart.py), modelled on the
caller-value level: coerce datetimes, drop NaT rows, then resample; the
result is the series handed to `plt.plot`, or `none` on an early return.
The `df = df.copy()` aliasing of line 10 is treated separately by
`plot_connections_over_time_heap`. -/
def plot_connections_over_time (records : List NormalizedRecord) (w : Int) :
    Option (List (Int × Int)) :=
  resampleStage (dropNaT (coerceDatetimes records)) w

/-- A pandas DataFrame value on the heap. -/
abbrev DFrame := List NormalizedRecord

/-- The Python heap relevant to `plot_connections_over_time`: dataframe
objects addressed by reference (list index). -/
abbrev Heap := List DFrame

/-- Dereference a frame (out-of-range reads as the empty frame; theorems
about the heap model only use in-range references). -/
def heapGet (h : Heap) (r : Nat) : DFrame := (h[r]?).getD []

/-- In-place mutation of the frame object behind a reference
(what a pandas column assignment `df[col] = ...` does). -/
def heapSet (h : Heap) (r : Nat) (v : DFrame) : Heap := h.set r v

/-- Allocation of a fresh frame object (what `df.copy()` or a filtering
selection `df[mask]` returns). -/
def heapAlloc (h : Heap) (v : DFrame) : Heap × Nat := (h ++ [v], h.length)

/-- `plot_connections_over_time` with Python object semantics for its first
three lines: line 10 `df = df.copy()` allocates a copy and rebinds the
local name; line 11 `df["datetime"] = pd.to_datetime(...)` mutates that
copy in place; line 12 `df = df[df["datetime"].notna()]` allocates the
filtered frame and rebinds.  Returns the final heap and the rendered
series (as in the pure model). -/
def plot_connections_over_time_heap (h : Heap) (df : Nat) (w : Int) :
    Heap × Option (List (Int × Int)) :=
  let a1 := heapAlloc h (heapGet h df)
  let h1 := a1.1
  let dfc := a1.2
  let h2 := heapSet h1 dfc (coerceDatetimes (heapGet h1 dfc))
  let a2 := heapAlloc h2 (dropNaT (heapGet h2 dfc))
  let h3 := a2.1
  let dff := a2.2
  (h3, resampleStage (heapGet h3 dff) w)

/-- Concrete input of the C4 witness: 12 distinct non-excluded protocols
whose summed event counts are [50,40,30,25,20,15,10,8,6,4,3,1]. -/
def c4Records : List NormalizedRecord :=
  [⟨none, "pa", 0, 50⟩, ⟨none, "pb", 0, 40⟩, ⟨none, "pc", 0, 30⟩, ⟨none, "pd", 0, 25⟩,
   ⟨none, "pe", 0, 20⟩, ⟨none, "pf", 0, 15⟩, ⟨none, "pg", 0, 10⟩, ⟨none, "ph", 0, 8⟩,
   ⟨none, "pi", 0, 6⟩, ⟨none, "pj", 0, 4⟩, ⟨none, "pk", 0, 3⟩, ⟨none, "pl", 0, 1⟩]

/-- Concrete input of the C6 witness: three one-event records at epoch
seconds 5, 20 and 35 (00:00:05, 00:00:20, 00:00:35). -/
def c6Records : List NormalizedRecord :=
  [{ datetime := some 5, unified_protocol := "conn", total_bytes := 0, event_count := 1 },
   { datetime := some 20, unified_protocol := "conn", total_bytes := 0, event_count := 1 },
   { datetime := some 35, unified_protocol := "conn", total_bytes := 0, event_count := 1 }]

/-- Concrete input of the C7 witness: a row with `orig_bytes = 100` and
`resp_bytes` missing (`"-"`). -/
def c7File : CSVFile := ⟨"conn.log.csv", ["orig_bytes", "resp_bytes"], [["100", "-"]]⟩

/-- Concrete heap for the C10 witness: one dataframe object. -/
def c10Heap : Heap :=
  [[{ datetime := some 5, unified_protocol := "conn", total_bytes := 0, event_count := 1 }]]

/- ------------------------------------------------------------------ -/
/- Helper lemmas -/
/- ------------------------------------------------------------------ -/

theorem total_bytes_of_mem_rowRecords {f : CSVFile} {row : List String} {r : NormalizedRecord}
    (hr : r ∈ rowRecords f row) : r.total_bytes = rowTotalBytes f row := by
  obtain ⟨p, -, rfl⟩ := List.mem_map.1 hr
  rfl

theorem toNum0_nonneg (o : Option String)
    (h : ∀ n : Int, o.bind parseNum = some n → 0 ≤ n) : 0 ≤ toNum0 o := by
  unfold toNum0
  cases hb : o.bind parseNum with
  | none => simp
  | some n => simpa using h n hb

theorem coerceDatetimes_eq (l : List NormalizedRecord) : coerceDatetimes l = l := by
  induction l with
  | nil => rfl
  | cons a t ih =>
    show { a with datetime := to_datetime_coerce a.datetime } :: coerceDatetimes t = a :: t
    rw [ih]
    rfl

theorem dropNaT_validEvents (l : List NormalizedRecord) :
    validEvents (dropNaT l) = validEvents l := by
  induction l with
  | nil => rfl
  | cons a t ih =>
    cases h : a.datetime with
    | none =>
      simp [dropNaT, validEvents, List.filter_cons, List.filterMap_cons, h] at ih ⊢
      exact ih
    | some x =>
      simp [dropNaT, validEvents, List.filter_cons, List.filterMap_cons, h] at ih ⊢
      exact ih

theorem dropNaT_dropNaT (l : List NormalizedRecord) : dropNaT (dropNaT l) = dropNaT l := by
  simp [dropNaT, List.filter_filter]

theorem bucketSum_perm (w b : Int) {pts qts : List (Int × Int)} (h : pts.Perm qts) :
    bucketSum w b pts = bucketSum w b qts :=
  List.Perm.sum_eq (List.Perm.map Prod.snd (List.Perm.filter _ h))

theorem foldl_min_le_init (l : List (Int × Int)) (a : Int) :
    l.foldl (fun m x => min m x.1) a ≤ a := by
  induction l generalizing a with
  | nil => exact le_refl a
  | cons x t ih => exact le_trans (ih (min a x.1)) (min_le_left a x.1)

theorem foldl_min_le {l : List (Int × Int)} {q : Int × Int} (hq : q ∈ l) (a : Int) :
    l.foldl (fun m x => min m x.1) a ≤ q.1 := by
  induction l generalizing a with
  | nil => cases hq
  | cons x t ih =>
    rcases List.mem_cons.1 hq with h | h
    · subst h
      exact le_trans (foldl_min_le_init t (min a q.1)) (min_le_right a q.1)
    · exact ih h (min a x.1)

theorem le_foldl_max_init (l : List (Int × Int)) (a : Int) :
    a ≤ l.foldl (fun m x => max m x.1) a := by
  induction l generalizing a with
  | nil => exact le_refl a
  | cons x t ih => exact le_trans (le_max_left a x.1) (ih (max a x.1))

theorem le_foldl_max {l : List (Int × Int)} {q : Int × Int} (hq : q ∈ l) (a : Int) :
    q.1 ≤ l.foldl (fun m x => max m x.1) a := by
  induction l generalizing a with
  | nil => cases hq
  | cons x t ih =>
    rcases List.mem_cons.1 hq with h | h
    · subst h
      exact le_trans (le_max_right a q.1) (le_foldl_max_init t (max a q.1))
    · exact ih h (max a x.1)

/- ------------------------------------------------------------------ -/
/- Claim theorems -/
/- ------------------------------------------------------------------ -/

/-- C1 (code bug): for a `files.log.csv` whose only byte column is a
literal `total_bytes` column, the claim (and the source's own comment)
says the output `total_bytes` is that column's value — here 123 — but the
code's earlier `df["total_bytes"] = 0` has already overwritten the column,
so normalization emits `total_bytes = 0`. -/
theorem C1_files_log_total_bytes_zeroed :
    load_and_standardize_log ⟨"files.log.csv", ["total_bytes"], [["123"]]⟩ =
      [{ datetime := none, unified_protocol := "files", total_bytes := 0, event_count := 1 }] := by
  decide

/-- C2: for every connection-log row with a `service` column, normalization
emits exactly one record per comma-separated service entry, in order, its
protocol the trimmed lowercased entry and its `event_count` equal to 1. -/
theorem C2_conn_service_explosion (f : CSVFile) (row : List String)
    (h1 : f.name = "conn.log.csv") (h2 : "service" ∈ f.cols) :
    (rowRecords f row).map (fun r => (r.unified_protocol, r.event_count)) =
      (pySplitComma ((getCell f.cols row "service").getD "unknown_service")).map
        (fun s => (pyLower (pyStrip s), 1)) ∧
    (rowRecords f row).length =
      (pySplitComma ((getCell f.cols row "service").getD "unknown_service")).length := by
  constructor
  · simp [rowRecords, rowProtocols, h1, h2, List.map_map]
  · simp [rowRecords, rowProtocols, h1, h2]

/-- Witness for C2 at the spec's concrete instance: a conn-log row with
`service = "gssapi,dce_rpc"` yields exactly the records
("gssapi", 1) and ("dce_rpc", 1). -/
theorem C2_conn_service_explosion_witness :
    (rowRecords ⟨"conn.log.csv", ["service"], [["gssapi,dce_rpc"]]⟩ ["gssapi,dce_rpc"]).map
      (fun r => (r.unified_protocol, r.event_count)) = [("gssapi", 1), ("dce_rpc", 1)] :=
  ((C2_conn_service_explosion ⟨"conn.log.csv", ["service"], [["gssapi,dce_rpc"]]⟩
    ["gssapi,dce_rpc"] rfl (by decide)).1).trans (by decide)

/-- C7: byte-count precedence — when both `orig_bytes` and `resp_bytes`
columns exist, every record of a row carries their sum with missing or
non-numeric cells coerced to 0; and when neither pair, nor a
`response_body_len` column, nor a file-size source is present, every
record carries `total_bytes = 0`. -/
theorem C7_total_bytes_precedence (f : CSVFile) (row : List String) :
    (("orig_bytes" ∈ f.cols ∧ "resp_bytes" ∈ f.cols) →
      ∀ r ∈ rowRecords f row,
        r.total_bytes =
          toNum0 (getCell f.cols row "orig_bytes") + toNum0 (getCell f.cols row "resp_bytes")) ∧
    ((¬ ("orig_bytes" ∈ f.cols ∧ "resp_bytes" ∈ f.cols)) →
      "response_body_len" ∉ f.cols →
      ¬ (f.name = "files.log.csv" ∧ "total_bytes" ∈ f.cols) →
      ∀ r ∈ rowRecords f row, r.total_bytes = 0) := by
  constructor
  · intro hc r hr
    rw [total_bytes_of_mem_rowRecords hr, rowTotalBytes, if_pos hc]
  · intro hc hrb _ r hr
    rw [total_bytes_of_mem_rowRecords hr, rowTotalBytes, if_neg hc, if_neg hrb, ite_self]

/-- Witness for C7 at the spec's concrete instance: `orig_bytes = 100`,
`resp_bytes` missing (`"-"`), so `total_bytes` resolves to 100 + 0. -/
theorem C7_total_bytes_precedence_witness :
    ("orig_bytes" ∈ c7File.cols ∧ "resp_bytes" ∈ c7File.cols) ∧
    (∀ r ∈ rowRecords c7File ["100", "-"],
      r.total_bytes = toNum0 (getCell c7File.cols ["100", "-"] "orig_bytes") +
        toNum0 (getCell c7File.cols ["100", "-"] "resp_bytes")) ∧
    toNum0 (getCell c7File.cols ["100", "-"] "orig_bytes") +
      toNum0 (getCell c7File.cols ["100", "-"] "resp_bytes") = 100 :=
  ⟨by decide, (C7_total_bytes_precedence c7File ["100", "-"]).1 (by decide), by decide⟩

/-- C9 counterexample: the claim quantifies over every input CSV file, but
a file with a negative byte cell (here `orig_bytes = "-5"`, which is not an
na-value and parses as the number −5) yields a record with negative
`total_bytes`. -/
theorem C9_counterexample :
    ¬ ∀ (f : CSVFile), ∀ r ∈ load_and_standardize_log f, 0 ≤ r.total_bytes := by
  intro hall
  have h := hall ⟨"x.log.csv", ["orig_bytes", "resp_bytes"], [["-5", "0"]]⟩
    { datetime := none, unified_protocol := "x", total_bytes := -5, event_count := 1 } (by decide)
  exact absurd h (by decide)

/-- C9 (amended): every record produced by normalization has non-negative
`total_bytes` provided every numeric cell of the file parses to a
non-negative value (as byte counts in real logs do). -/
theorem C9_total_bytes_nonneg (f : CSVFile)
    (hcells : ∀ row ∈ f.rows, ∀ c ∈ f.cols, ∀ n : Int,
      (getCell f.cols row c).bind parseNum = some n → 0 ≤ n) :
    ∀ r ∈ load_and_standardize_log f, 0 ≤ r.total_bytes := by
  intro r hr
  obtain ⟨row, hrow, hrr⟩ := List.mem_flatMap.1 hr
  rw [total_bytes_of_mem_rowRecords hrr, rowTotalBytes]
  split
  · next hc =>
      exact add_nonneg (toNum0_nonneg _ (hcells row hrow _ hc.1))
        (toNum0_nonneg _ (hcells row hrow _ hc.2))
  · split
    · next _ hm =>
        exact toNum0_nonneg _ (hcells row hrow _ hm)
    · rw [ite_self]

/-- Witness for C9: a file whose only column holds a non-numeric protocol
cell satisfies the non-negativity hypothesis, and its records all have
`total_bytes = 0 ≥ 0`. -/
theorem C9_total_bytes_nonneg_witness :
    load_and_standardize_log ⟨"dns.log.csv", ["proto"], [["UDP"]]⟩ =
      [{ datetime := none, unified_protocol := "udp", total_bytes := 0, event_count := 1 }] ∧
    (∀ r ∈ load_and_standardize_log ⟨"dns.log.csv", ["proto"], [["UDP"]]⟩, 0 ≤ r.total_bytes) :=
  ⟨by decide,
    C9_total_bytes_nonneg ⟨"dns.log.csv", ["proto"], [["UDP"]]⟩ (by
      intro row hrow c hc n h
      simp only [List.mem_singleton] at hrow hc
      subst hrow
      subst hc
      exact Option.noConfusion h)⟩

/-- C3 counterexample: a dataset consisting of one `udp` record filters and
groups to an empty series, yet `plot_protocol_pie` still reaches its
rendering calls (there is no empty-series guard in the function), producing
a zero-slice chart rather than no chart. -/
theorem C3_counterexample :
    aggSeries [(⟨none, "udp", 0, 3⟩ : NormalizedRecord)] = [] ∧
    plot_protocol_pie [(⟨none, "udp", 0, 3⟩ : NormalizedRecord)] ≠ none := by
  exact ⟨by decide, by decide⟩

/-- C3 (amended): when the filtered/grouped series is empty,
`plot_protocol_pie` does not skip — it proceeds to render a chart whose
slice series is empty (a zero-slice pie is saved/shown). -/
theorem C3_empty_series_still_rendered (records : List NormalizedRecord)
    (h : aggSeries records = []) : plot_protocol_pie records = some [] := by
  simp [plot_protocol_pie, h]

/-- Witness for C3 at a concrete dataset whose only protocol is the
excluded `tcp`. -/
theorem C3_empty_series_still_rendered_witness :
    aggSeries [(⟨none, "tcp", 0, 5⟩ : NormalizedRecord)] = [] ∧
    plot_protocol_pie [(⟨none, "tcp", 0, 5⟩ : NormalizedRecord)] = some [] :=
  ⟨by decide, C3_empty_series_still_rendered _ (by decide)⟩

/-- C4: when more than 8 distinct non-excluded protocols remain, the
plotted series is the top 8 categories by summed event count followed by a
single trailing `"other"` category holding the sum of all remaining
counts. -/
theorem C4_top8_other (records : List NormalizedRecord)
    (h : 8 < (aggSeries records).length) :
    (aggSeries records).Sorted (fun a b => b.2 ≤ a.2) ∧
    plot_protocol_pie records =
      some ((aggSeries records).take 8 ++
        [("other", (((aggSeries records).drop 8).map Prod.snd).sum)]) := by
  constructor
  · have ht : IsTotal (String × Int) (fun a b : String × Int => b.2 ≤ a.2) :=
      ⟨fun a b => le_total b.2 a.2⟩
    have htr : IsTrans (String × Int) (fun a b : String × Int => b.2 ≤ a.2) :=
      ⟨fun a b c hab hbc => le_trans hbc hab⟩
    exact List.sorted_insertionSort _ _
  · simp [plot_protocol_pie, h]

/-- Witness for C4 at the spec's concrete instance: 12 distinct protocols
with counts [50,40,30,25,20,15,10,8,6,4,3,1] plot as exactly 9 slices, the
top 8 plus ("other", 14). -/
theorem C4_top8_other_witness :
    8 < (aggSeries c4Records).length ∧
    plot_protocol_pie c4Records =
      some [("pa", 50), ("pb", 40), ("pc", 30), ("pd", 25), ("pe", 20), ("pf", 15),
            ("pg", 10), ("ph", 8), ("other", 14)] := by
  refine ⟨by decide, ?_⟩
  rw [(C4_top8_other c4Records (by decide)).2]
  decide

/-- C5: no protocol of the fixed transport/placeholder exclusion set ever
appears among the keys of the grouped protocol-share series, however large
its raw counts. -/
theorem C5_transport_excluded (records : List NormalizedRecord) (p : String)
    (hp : p ∈ transport_protocols_to_exclude) :
    p ∉ (aggSeries records).map Prod.fst := by
  intro hmem
  simp only [aggSeries, sort_values_desc] at hmem
  have h1 : p ∈ (groupSumByProtocol (filteredRecords records)).map Prod.fst :=
    (List.Perm.mem_iff (List.Perm.map Prod.fst (List.perm_insertionSort _ _))).1 hmem
  have h2 : p ∈ List.insertionSort (fun a b => strLe a b = true)
      (((filteredRecords records).map (fun r => r.unified_protocol)).dedup) := by
    simpa [groupSumByProtocol, List.map_map] using h1
  have h3 : p ∈ (filteredRecords records).map (fun r => r.unified_protocol) :=
    List.mem_dedup.1 ((List.Perm.mem_iff (List.perm_insertionSort _ _)).1 h2)
  obtain ⟨r, hr, hrp⟩ := List.mem_map.1 h3
  have hkeep := List.of_mem_filter hr
  rw [hrp] at hkeep
  simp at hkeep
  exact hkeep hp

/-- Witness for C5: `tcp` dominates the raw counts of a concrete dataset
yet is absent from the grouped series. -/
theorem C5_transport_excluded_witness :
    "tcp" ∈ transport_protocols_to_exclude ∧
    "tcp" ∉ (aggSeries
      [(⟨none, "tcp", 0, 999⟩ : NormalizedRecord), (⟨none, "http", 0, 1⟩ : NormalizedRecord)]).map
        Prod.fst :=
  ⟨by decide, C5_transport_excluded _ "tcp" (by decide)⟩

/-- C8: the line chart drops records whose datetime is null before
resampling — the plot is unchanged if the null-datetime records are removed
beforehand — and when every record's datetime is null it produces no chart
(the function returns at the `df.empty` test, before any rendering; the
embedding is total, so no exception can escape). -/
theorem C8_null_timestamps_dropped (records : List NormalizedRecord) (w : Int) :
    ((∀ r ∈ records, r.datetime = none) → plot_connections_over_time records w = none) ∧
    plot_connections_over_time records w = plot_connections_over_time (dropNaT records) w := by
  constructor
  · intro hall
    have hnil : dropNaT (coerceDatetimes records) = [] := by
      rw [coerceDatetimes_eq]
      exact List.filter_eq_nil_iff.2 (fun r hr => by simp [hall r hr])
    simp [plot_connections_over_time, hnil, resampleStage]
  · simp [plot_connections_over_time, coerceDatetimes_eq, dropNaT_dropNaT]

/-- Witness for C8: a dataset whose only record has a null datetime yields
no chart. -/
theorem C8_null_timestamps_dropped_witness :
    plot_connections_over_time [(⟨none, "conn", 0, 1⟩ : NormalizedRecord)] 30 = none :=
  (C8_null_timestamps_dropped [(⟨none, "conn", 0, 1⟩ : NormalizedRecord)] 30).1 (by decide)

/-- Reading an old reference after an allocation. -/
theorem heapGet_alloc_old (h : Heap) (v : DFrame) {r : Nat} (hr : r < h.length) :
    heapGet (heapAlloc h v).1 r = heapGet h r := by
  simp [heapGet, heapAlloc, List.getElem?_append, hr]

/-- Reading the reference an allocation returns (the new frame sits at the
old heap length). -/
theorem heapGet_alloc_len (h : Heap) (v : DFrame) :
    heapGet (heapAlloc h v).1 h.length = v := by
  simp [heapGet, heapAlloc, List.getElem?_concat_length]

/-- Reading back an in-place frame mutation. -/
theorem heapGet_set_self (h : Heap) {r : Nat} (hr : r < h.length) (v : DFrame) :
    heapGet (heapSet h r v) r = v := by
  simp [heapGet, heapSet, List.getElem?_set_self hr]

/-- An in-place frame mutation leaves every other reference unchanged. -/
theorem heapGet_set_ne (h : Heap) {r s : Nat} (hrs : r ≠ s) (v : DFrame) :
    heapGet (heapSet h r v) s = heapGet h s := by
  simp [heapGet, heapSet, List.getElem?_set_ne hrs]

theorem heapSet_length (h : Heap) (r : Nat) (v : DFrame) :
    (heapSet h r v).length = h.length := by
  simp [heapSet]

/-- Reading the reference an allocation returns. -/
theorem heapGet_alloc_new (h : Heap) (v : DFrame) :
    heapGet (heapAlloc h v).1 (heapAlloc h v).2 = v :=
  heapGet_alloc_len h v

/-- C10: under Python object semantics, `plot_connections_over_time` never
mutates the caller's dataframe: line 10 copies the frame, line 11's
in-place column write hits only that copy, and line 12 rebinds to a fresh
filtered frame — so after the call the caller's reference still holds the
original frame, and the rendered series agrees with the value-level
model. -/
theorem C10_no_caller_mutation (h : Heap) (df : Nat) (w : Int) (hdf : df < h.length) :
    heapGet (plot_connections_over_time_heap h df w).1 df = heapGet h df ∧
    (plot_connections_over_time_heap h df w).2 =
      plot_connections_over_time (heapGet h df) w := by
  have hne : h.length ≠ df := Nat.ne_of_gt hdf
  have halloc2 : (heapAlloc h (heapGet h df)).2 = h.length := rfl
  constructor
  · simp only [plot_connections_over_time_heap, halloc2]
    rw [heapGet_alloc_old _ _ (by
      rw [heapSet_length]
      simp [heapAlloc]
      omega)]
    rw [heapGet_set_ne _ hne, heapGet_alloc_old _ _ hdf]
  · simp only [plot_connections_over_time_heap, halloc2]
    rw [heapGet_alloc_len, heapGet_set_self _ (by simp [heapAlloc]) _, heapGet_alloc_new]
    rfl

/-- Witness for C10 at a concrete one-frame heap. -/
theorem C10_no_caller_mutation_witness :
    heapGet (plot_connections_over_time_heap c10Heap 0 30).1 0 = heapGet c10Heap 0 ∧
    (plot_connections_over_time_heap c10Heap 0 30).2 =
      plot_connections_over_time (heapGet c10Heap 0) 30 :=
  C10_no_caller_mutation c10Heap 0 30 (by decide)

theorem resampleSum_snd (w : Int) (pts : List (Int × Int)) :
    ∀ p ∈ resampleSum w pts, p.2 = bucketSum w p.1 pts := by
  cases pts with
  | nil =>
    intro p hp
    cases hp
  | cons p0 ps =>
    intro p hp
    simp only [resampleSum, List.mem_map, List.mem_range] at hp
    obtain ⟨i, -, rfl⟩ := hp
    rfl

theorem resampleSum_length (w : Int) (p0 : Int × Int) (ps : List (Int × Int)) :
    (resampleSum w (p0 :: ps)).length =
      ((bucketStart w (ps.foldl (fun m x => max m x.1) p0.1) -
        bucketStart w (ps.foldl (fun m x => min m x.1) p0.1)) / w).toNat + 1 := by
  simp [resampleSum]

theorem resampleSum_get_fst (w : Int) (p0 : Int × Int) (ps : List (Int × Int)) (j : Nat)
    (hj : j < (resampleSum w (p0 :: ps)).length) :
    ((resampleSum w (p0 :: ps)).get ⟨j, hj⟩).1 =
      bucketStart w (ps.foldl (fun m x => min m x.1) p0.1) + w * (j : Int) := by
  simp only [resampleSum, List.get_eq_getElem, List.getElem_map, List.getElem_range]

theorem resampleSum_get_snd (w : Int) (p0 : Int × Int) (ps : List (Int × Int)) (j : Nat)
    (hj : j < (resampleSum w (p0 :: ps)).length) :
    ((resampleSum w (p0 :: ps)).get ⟨j, hj⟩).2 =
      bucketSum w (bucketStart w (ps.foldl (fun m x => min m x.1) p0.1) + w * (j : Int))
        (p0 :: ps) := by
  simp only [resampleSum, List.get_eq_getElem, List.getElem_map, List.getElem_range]

theorem resampleSum_consecutive (w : Int) (pts : List (Int × Int)) :
    ∀ i : Nat, ∀ h1 : i + 1 < (resampleSum w pts).length,
      ((resampleSum w pts).get ⟨i + 1, h1⟩).1 =
        ((resampleSum w pts).get ⟨i, Nat.lt_of_succ_lt h1⟩).1 + w := by
  cases pts with
  | nil =>
    intro i h1
    simp [resampleSum] at h1
  | cons p0 ps =>
    intro i h1
    rw [resampleSum_get_fst, resampleSum_get_fst, Nat.cast_add, Nat.cast_one]
    ring

theorem resampleSum_covers {w : Int} (hw : 0 < w) {pts : List (Int × Int)}
    {q : Int × Int} (hq : q ∈ pts) :
    ∃ p ∈ resampleSum w pts, p.1 ≤ q.1 ∧ q.1 < p.1 + w := by
  cases pts with
  | nil => cases hq
  | cons p0 ps =>
    have hqmin : ps.foldl (fun m x => min m x.1) p0.1 ≤ q.1 := by
      rcases List.mem_cons.1 hq with h | h
      · rw [h]
        exact foldl_min_le_init ps p0.1
      · exact foldl_min_le h p0.1
    have hqmax : q.1 ≤ ps.foldl (fun m x => max m x.1) p0.1 := by
      rcases List.mem_cons.1 hq with h | h
      · rw [h]
        exact le_foldl_max_init ps p0.1
      · exact le_foldl_max h p0.1
    set tmin := ps.foldl (fun m x => min m x.1) p0.1 with htmin
    set tmax := ps.foldl (fun m x => max m x.1) p0.1 with htmax
    have hwne : w ≠ 0 := ne_of_gt hw
    have hdivle : q.1 / w ≤ tmax / w := Int.ediv_le_ediv hw hqmax
    have hdivge : tmin / w ≤ q.1 / w := Int.ediv_le_ediv hw hqmin
    have hn : (bucketStart w tmax - bucketStart w tmin) / w = tmax / w - tmin / w := by
      unfold bucketStart
      rw [← mul_sub, Int.mul_ediv_cancel_left _ hwne]
    have hk0 : (0 : Int) ≤ q.1 / w - tmin / w := sub_nonneg.2 hdivge
    have hj : (q.1 / w - tmin / w).toNat < (resampleSum w (p0 :: ps)).length := by
      rw [resampleSum_length, hn]
      have hmono := Int.toNat_le_toNat (sub_le_sub_right hdivle (tmin / w))
      omega
    have hb : bucketStart w tmin + w * (((q.1 / w - tmin / w).toNat : Int)) = w * (q.1 / w) := by
      rw [Int.toNat_of_nonneg hk0]
      unfold bucketStart
      ring
    have hd := Int.ediv_add_emod q.1 w
    refine ⟨(resampleSum w (p0 :: ps)).get ⟨(q.1 / w - tmin / w).toNat, hj⟩,
      List.get_mem _ _ _, ?_, ?_⟩
    · rw [resampleSum_get_fst, hb]
      have hm := Int.emod_nonneg q.1 hwne
      linarith
    · rw [resampleSum_get_fst, hb]
      have hm := Int.emod_lt_of_pos q.1 hw
      linarith

/-- C6: whenever the line chart is produced (with positive bucket width),
its series partitions the valid events into fixed-width left-closed
buckets: every plotted bucket value is the sum of the event counts in
`[start, start + w)`, consecutive bucket starts differ by exactly the
width (so zero-event buckets are present with value 0), and every valid
event falls inside some plotted bucket. -/
theorem C6_time_bucketing (records : List NormalizedRecord) (w : Int) (hw : 0 < w)
    (bs : List (Int × Int)) (hres : plot_connections_over_time records w = some bs) :
    (∀ p ∈ bs, p.2 = bucketSum w p.1 (validEvents records)) ∧
    (∀ i : Nat, ∀ h1 : i + 1 < bs.length,
      (bs.get ⟨i + 1, h1⟩).1 = (bs.get ⟨i, Nat.lt_of_succ_lt h1⟩).1 + w) ∧
    (∀ q ∈ validEvents records, ∃ p ∈ bs, p.1 ≤ q.1 ∧ q.1 < p.1 + w) := by
  have hbs : bs = resampleSum w (sortByTime (validEvents (dropNaT records))) := by
    simp only [plot_connections_over_time, resampleStage, coerceDatetimes_eq] at hres
    split_ifs at hres
    exact (Option.some.inj hres).symm
  have hperm : (sortByTime (validEvents (dropNaT records))).Perm (validEvents records) := by
    refine (List.perm_insertionSort _ _).trans ?_
    rw [dropNaT_validEvents]
  subst hbs
  refine ⟨?_, ?_, ?_⟩
  · intro p hp
    rw [resampleSum_snd w _ p hp]
    exact bucketSum_perm w p.1 hperm
  · exact resampleSum_consecutive w _
  · intro q hq
    exact resampleSum_covers hw (hperm.mem_iff.2 hq)

/-- Witness for C6 at the spec's concrete instance: a 30-second width over
one-event records at epoch seconds 5, 20 and 35 yields exactly the buckets
(0, 2) and (30, 1), and each plotted value is the left-closed bucket sum. -/
theorem C6_time_bucketing_witness :
    plot_connections_over_time c6Records 30 = some [(0, 2), (30, 1)] ∧
    (∀ p ∈ [((0 : Int), (2 : Int)), (30, 1)], p.2 = bucketSum 30 p.1 (validEvents c6Records)) :=
  ⟨by decide, (C6_time_bucketing c6Records 30 (by decide) [(0, 2), (30, 1)] (by decide)).1⟩
